import Mathlib

/-!
Shallow embedding of the LumoLights LED rendering core (src/210_LED_CORE.h and
the EDGE_CENTER sanitizer of src/300_CONSOLE.h).

Modelling conventions:
* C `float` values are modelled as `ℚ`; every arithmetic step relevant to the
  theorems below is exact in single-precision floats (small dyadic values), so
  the rational model coincides with the source on these computations.
* A C cast `float → int` truncates toward zero (`truncQ`).
* The C++ conversion `int → uint8_t` is reduction modulo 256 (`byteOfInt`);
  the conversion `float → uint32_t` for the nonnegative values arising here is
  truncation (`castU32`, totalized with a modulo).
* The fixed-size C arrays `Pixels`, `Colors`, `Scale` (all of `LED_COUNT`
  entries, with `Vars::Count = LED_COUNT`) are modelled as lists whose length
  is the live pixel count.
* `Arduino constrain(x, lo, hi)` is `constrainQ`.
-/

namespace LumoLED

/-- Per-pixel byte representation (struct Pixel_byte; `uint8_t` channels). -/
structure PixelByte where
  R : Nat
  G : Nat
  B : Nat
  W : Nat
deriving DecidableEq

/-- Per-pixel float representation (struct Pixel_float). -/
structure PixelFloat where
  R : ℚ
  G : ℚ
  B : ℚ
  W : ℚ
deriving DecidableEq

/-- One ambient-effect channel record (struct Effect_Container). -/
structure EffectContainer where
  prev : ℚ
  next : ℚ
  currentOutput : ℚ
  numSteps : Nat
  currentStep : Nat
  hold : Bool
deriving DecidableEq

/-- Gradient modes (enum GradientMode). -/
inductive GradientMode where
  | LINEAR
  | LINEAR_PADDING
  | SINGLE_COLOR
  | MIDPOINT_SPLIT
  | EDGE_CENTER
deriving DecidableEq

/-- Interpolation modes (enum class InterpolationMode). -/
inductive InterpolationMode where
  | Linear
  | Smooth
deriving DecidableEq

/-- The configuration fields of struct Config used by the embedded operations,
with the source's default values. -/
structure Config where
  gradientPaddingBegin : ℚ := 1/10
  gradientPaddingValue : ℚ := 19/20
  gradientMiddleEdgeSize : ℚ := 0
  gradientMiddleCenterSize : ℚ := 1/20
  gradientInterpolationMode : InterpolationMode := .Smooth
  gradientMode : GradientMode := .LINEAR_PADDING
  gradientInvertColors : Bool := false
  effectMinAmplitude : ℚ := 3/5
  effectMaxAmplitude : ℚ := 6/5
  effectEvolveMinSteps : ℚ := 100
  effectEvolveMaxSteps : ℚ := 200
  effectHoldMinSteps : ℚ := 10
  effectHoldMaxSteps : ℚ := 30
  effectActive : Bool := true
deriving DecidableEq

/-- The live state of struct Vars. The three buffers `Pixels`, `Colors`,
`Scale` are fixed-size arrays of `Vars::Count = LED_COUNT` entries in the
source; their common length is the live pixel count. -/
structure Vars where
  Pixels : List PixelByte
  Colors : List PixelByte
  Scale : List PixelFloat
  colorOne : PixelFloat
  colorTwo : PixelFloat
  brightness : ℚ
  onoffFactor : ℚ
  Effect : List EffectContainer
deriving DecidableEq

/-- Live pixel count (`Vars::Count`, equal to the buffer size). -/
def Vars.Count (v : Vars) : Nat := v.Pixels.length

/-- Zero pixel, default for out-of-range byte-buffer reads. -/
def pbZero : PixelByte := ⟨0, 0, 0, 0⟩

/-- Zero float pixel, default for out-of-range float-buffer reads. -/
def pfZero : PixelFloat := ⟨0, 0, 0, 0⟩

/-- Arduino `constrain(x, lo, hi)`. -/
def constrainQ (x lo hi : ℚ) : ℚ :=
  if x < lo then lo else if x > hi then hi else x

/-- C cast `float → int`: truncation toward zero. -/
def truncQ (x : ℚ) : ℤ :=
  if 0 ≤ x then ⌊x⌋ else -⌊-x⌋

/-- C++ conversion `int → uint8_t`: reduction modulo 256. -/
def byteOfInt (x : ℤ) : Nat := (x % 256).toNat

/-- C cast `float → uint32_t` (truncation; totalized modulo 2^32 for the
negative case, which does not occur with the source's positive step configs). -/
def castU32 (x : ℚ) : Nat := (truncQ x % (2 ^ 32 : ℤ)).toNat

/-- The dead in-range clamp of SetPixelRGBW's `uint8_t` parameters
(`if (r > 255) r = 255;` — a no-op on byte inputs, kept for fidelity). -/
def clampByte (x : Nat) : Nat := if 255 < x then 255 else x

/-- StepTowards (src/210_LED_CORE.h lines 383-388): move `current` toward
`target` by at most `step`; nonpositive `step` jumps to `target`. -/
def stepTowards (current target step : ℚ) : ℚ :=
  if step ≤ 0 then target
  else
    let diff := target - current
    if |diff| ≤ step then target
    else current + (if 0 < diff then step else -step)

/-- Repeated application of StepTowards with a fixed target and step. -/
def stepIter (target step start : ℚ) (k : Nat) : ℚ :=
  (fun x => stepTowards x target step)^[k] start

/-- The local lambda mapFloatToFloat of Effect (lines 291-296). -/
def mapFloatToFloat (x x0 x1 y0 y1 : ℚ) : ℚ :=
  if x ≤ x0 then y0
  else if x ≥ x1 then y1
  else y0 + (x - x0) / (x1 - x0) * (y1 - y0)

/-- The numSteps computation of the evolve branch of Effect (lines 315-319):
`diff = next - prev` (signed), mapped from the amplitude range onto the
evolve-step range, multiplied by the sampled jitter, cast to `uint32_t`.
The freshly sampled `next` and the jitter sample are oracle inputs. -/
def evolveNumSteps (c : Config) (prev next jitter : ℚ) : Nat :=
  let diff := next - prev
  let diffMappedSteps :=
    mapFloatToFloat diff c.effectMinAmplitude c.effectMaxAmplitude
      c.effectEvolveMinSteps c.effectEvolveMaxSteps
  castU32 (diffMappedSteps * jitter)

/-- The same computation as the spec states it, with the absolute difference
in place of the signed difference (for comparison with `evolveNumSteps`). -/
def evolveNumStepsSpec (c : Config) (prev next jitter : ℚ) : Nat :=
  let diffMappedSteps :=
    mapFloatToFloat |next - prev| c.effectMinAmplitude c.effectMaxAmplitude
      c.effectEvolveMinSteps c.effectEvolveMaxSteps
  castU32 (diffMappedSteps * jitter)

/-- Channel read through the member pointer selected by the switch of
ShiftScaleChannel (case 0 R, 1 G, 2 B, 3 W, default R). -/
def getCh (channel : ℤ) (p : PixelFloat) : ℚ :=
  if channel = 0 then p.R
  else if channel = 1 then p.G
  else if channel = 2 then p.B
  else if channel = 3 then p.W
  else p.R

/-- Channel write through the same member pointer. -/
def setCh (channel : ℤ) (x : ℚ) (p : PixelFloat) : PixelFloat :=
  if channel = 0 then { p with R := x }
  else if channel = 1 then { p with G := x }
  else if channel = 2 then { p with B := x }
  else if channel = 3 then { p with W := x }
  else { p with R := x }

/-- ShiftScaleChannel (lines 724-767) acting on the Scale buffer: guarded on
empty buffers and out-of-range channels; forward copies `Scale[i] ← Scale[i-1]`
for `i = lastIndex..1` then writes `newValue` at slot 0; backward copies
`Scale[i] ← Scale[i+1]` for `i = 0..lastIndex-1` then writes `newValue` at the
last slot. Each loop reads pre-write values, captured here index-wise. -/
def shiftScaleChannel (newValue : ℚ) (channel : ℤ) (forward : Bool)
    (scale : List PixelFloat) : List PixelFloat :=
  if scale.length = 0 then scale
  else if channel < 0 ∨ 3 < channel then scale
  else
    let lastIndex := scale.length - 1
    (List.range scale.length).map (fun i =>
      let p := scale.getD i pfZero
      if forward then
        if i = 0 then setCh channel newValue p
        else setCh channel (getCh channel (scale.getD (i - 1) pfZero)) p
      else
        if i = lastIndex then setCh channel newValue p
        else setCh channel (getCh channel (scale.getD (i + 1) pfZero)) p)

/-- The `effectActive == false` branch of Effect (lines 339-344): a loop of
four calls `ShiftScaleChannel(1.0, 0, true)` whose channel argument is the
literal 0 (the loop variable `n` is not used in the call). -/
def effectTickInactive (v : Vars) : Vars :=
  { v with Scale :=
      (List.range 4).foldl (fun s _n => shiftScaleChannel 1 0 true s) v.Scale }

/-- SetPixelRGBW (lines 668-688): reject out-of-range indices, clamp the byte
parameters (a no-op after the `uint8_t` conversion), write one pixel. The
`ℤ` arguments model the caller-side `int → uint8_t` conversion at entry. -/
def setPixelRGBW (index : Nat) (r g b w : ℤ) (v : Vars) : Bool × Vars :=
  if v.Count ≤ index then (false, v)
  else
    let r1 := clampByte (byteOfInt r)
    let g1 := clampByte (byteOfInt g)
    let b1 := clampByte (byteOfInt b)
    let w1 := clampByte (byteOfInt w)
    (true, { v with Pixels := v.Pixels.set index ⟨r1, g1, b1, w1⟩ })

/-- One iteration of the ApplyOutputScaling loop (lines 639-661) at pixel
index `i`: scale each channel, clamp to [0,255], apply brightness and on-off
factors, round half up by adding 1/2 and truncating, store via SetPixelRGBW. -/
def outputScalingStep (bn onOff : ℚ) (v : Vars) (i : Nat) : Vars :=
  let ci := v.Colors.getD i pbZero
  let si := v.Scale.getD i pfZero
  let scaledR := (ci.R : ℚ) * si.R
  let scaledG := (ci.G : ℚ) * si.G
  let scaledB := (ci.B : ℚ) * si.B
  let scaledW := (ci.W : ℚ) * si.W
  let baseR := constrainQ scaledR 0 255
  let baseG := constrainQ scaledG 0 255
  let baseB := constrainQ scaledB 0 255
  let baseW := constrainQ scaledW 0 255
  let finalR := baseR * bn * onOff
  let finalG := baseG * bn * onOff
  let finalB := baseB * bn * onOff
  let finalW := baseW * bn * onOff
  let ri := truncQ (finalR + 1/2)
  let gi := truncQ (finalG + 1/2)
  let bi := truncQ (finalB + 1/2)
  let wi := truncQ (finalW + 1/2)
  (setPixelRGBW i ri gi bi wi v).2

/-- ApplyOutputScaling (lines 632-662): normalize brightness once, then run
the per-pixel loop over indices `0..Count-1`. -/
def applyOutputScaling (v : Vars) : Vars :=
  let bn := constrainQ v.brightness 0 255 / 255
  let onOff := v.onoffFactor
  (List.range v.Count).foldl (outputScalingStep bn onOff) v

/-- The pixel value one loop iteration stores for given inputs (the body of
`outputScalingStep` per channel, factored for statements about the result). -/
def outChannel (colorByte : Nat) (scale bn onOff : ℚ) : Nat :=
  clampByte (byteOfInt (truncQ (constrainQ ((colorByte : ℚ) * scale) 0 255 * bn * onOff + 1/2)))

/-- The four-channel version of `outChannel`. -/
def outPixel (ci : PixelByte) (si : PixelFloat) (bn onOff : ℚ) : PixelByte :=
  ⟨outChannel ci.R si.R bn onOff, outChannel ci.G si.G bn onOff,
   outChannel ci.B si.B bn onOff, outChannel ci.W si.W bn onOff⟩

/-- The local lambda ApplyInterpolation of ComputeGradient (lines 453-462). -/
def applyInterpolation (t : ℚ) (m : InterpolationMode) : ℚ :=
  let t1 := constrainQ t 0 1
  match m with
  | .Smooth => t1 * t1 * (3 - 2 * t1)
  | .Linear => t1

/-- The local lambda blendColors of ComputeGradient (lines 475-483). -/
def blendColors (a b : PixelFloat) (t : ℚ) : PixelFloat :=
  let t1 := constrainQ t 0 1
  ⟨a.R + (b.R - a.R) * t1, a.G + (b.G - a.G) * t1,
   a.B + (b.B - a.B) * t1, a.W + (b.W - a.W) * t1⟩

/-- The local lambda applyColor of ComputeGradient (lines 468-473): each float
channel is cast to `uint8_t`, which truncates toward zero (values are in
[0,255] here; the conversion is totalized modulo 256). -/
def pixelByteOfFloat (p : PixelFloat) : PixelByte :=
  ⟨byteOfInt (truncQ p.R), byteOfInt (truncQ p.G),
   byteOfInt (truncQ p.B), byteOfInt (truncQ p.W)⟩

/-- ComputeGradient (lines 448-619): populate `Colors[0..Count)` from the live
colors according to the gradient mode. Each branch writes `Colors[i]` once per
index from data independent of `Colors`, captured here as a per-index map. -/
def computeGradient (c : Config) (mode : GradientMode) (invertColors : Bool)
    (v : Vars) : Vars :=
  if v.Count = 0 then v
  else
    let primaryColor := if invertColors then v.colorTwo else v.colorOne
    let secondaryColor := if invertColors then v.colorOne else v.colorTwo
    let n := v.Count
    let colorAt : Nat → PixelByte :=
      match mode with
      | .SINGLE_COLOR => fun _ => pixelByteOfFloat primaryColor
      | .MIDPOINT_SPLIT =>
          let splitIndex := (n + 1) / 2
          fun i =>
            if i < splitIndex then pixelByteOfFloat primaryColor
            else pixelByteOfFloat secondaryColor
      | .LINEAR_PADDING =>
          let padStart := constrainQ c.gradientPaddingBegin 0 (2/5)
          let padValue := constrainQ c.gradientPaddingValue 0 1
          if n = 1 then
            fun _ => pixelByteOfFloat (blendColors primaryColor secondaryColor (1/2))
          else
            let startIdx := padStart * ((n : ℚ) - 1)
            let endIdx := (1 - padStart) * ((n : ℚ) - 1)
            let range := endIdx - startIdx
            fun i =>
              let w1 :=
                if (i : ℚ) ≤ startIdx then padValue
                else if (i : ℚ) ≥ endIdx ∨ range ≤ 0 then 1 - padValue
                else
                  let t := ((i : ℚ) - startIdx) / range
                  padValue + (1 - 2 * padValue) * constrainQ t 0 1
              let w2 := constrainQ (1 - w1) 0 1
              pixelByteOfFloat (blendColors primaryColor secondaryColor w2)
      | .EDGE_CENTER =>
          let edgeSize := constrainQ c.gradientMiddleEdgeSize 0 (1/2)
          let centerSize0 := constrainQ c.gradientMiddleCenterSize 0 1
          let maxCenter := 1 - 2 * edgeSize
          let centerSize1 := if centerSize0 > maxCenter then maxCenter else centerSize0
          let centerSize := if centerSize1 < 0 then 0 else centerSize1
          let transitionTotal0 := 1 - (2 * edgeSize + centerSize)
          let transitionTotal := if transitionTotal0 < 0 then 0 else transitionTotal0
          let halfTransition := transitionTotal * (1/2)
          let leftEdgeEnd := edgeSize
          let leftTransitionEnd := leftEdgeEnd + halfTransition
          let centerEnd := leftTransitionEnd + centerSize
          let rightTransitionEnd := centerEnd + halfTransition
          fun i =>
            let x := if n ≤ 1 then 0 else (i : ℚ) / ((n : ℚ) - 1)
            if x ≤ leftEdgeEnd ∨ halfTransition ≤ 1/1000000 then
              pixelByteOfFloat primaryColor
            else if x < leftTransitionEnd ∧ halfTransition > 1/1000000 then
              let t := (x - leftEdgeEnd) / halfTransition
              let blend := applyInterpolation t c.gradientInterpolationMode
              pixelByteOfFloat (blendColors primaryColor secondaryColor blend)
            else if x < centerEnd then
              pixelByteOfFloat secondaryColor
            else if x < rightTransitionEnd ∧ halfTransition > 1/1000000 then
              let t := (x - centerEnd) / halfTransition
              let blend := applyInterpolation t c.gradientInterpolationMode
              pixelByteOfFloat (blendColors secondaryColor primaryColor blend)
            else
              pixelByteOfFloat primaryColor
      | .LINEAR =>
          if n ≤ 1 then fun _ => pixelByteOfFloat primaryColor
          else
            fun i =>
              let t := (i : ℚ) / ((n : ℚ) - 1)
              pixelByteOfFloat (blendColors primaryColor secondaryColor t)
    { v with Colors := (List.range n).map colorAt }

/-- SanitizeEdgeCenterConfig (src/300_CONSOLE.h lines 1084-1094): clamp the
edge size to [0,0.5] and the center size to [0,1], then cap the center size at
`1 - 2*edgeSize` (or at 0 when that cap is nonpositive). -/
def sanitizeEdgeCenterConfig (cfg : Config) : Config :=
  let edge := constrainQ cfg.gradientMiddleEdgeSize 0 (1/2)
  let center0 := constrainQ cfg.gradientMiddleCenterSize 0 1
  let maxCenter := 1 - 2 * edge
  let center1 :=
    if center0 > maxCenter then (if maxCenter > 0 then maxCenter else 0)
    else center0
  let center := if center1 < 0 then 0 else center1
  { cfg with gradientMiddleEdgeSize := edge, gradientMiddleCenterSize := center }


/-! Concrete states and configurations used as test vectors in the theorems
below. -/

/-- A 3-pixel state matching the end-to-end LINEAR scenario: live colors
(255,0,0,0) and (0,0,255,0), full brightness, on, identity Scale. -/
def vC1 : Vars :=
  { Pixels := [pbZero, pbZero, pbZero]
    Colors := [pbZero, pbZero, pbZero]
    Scale := [⟨1, 1, 1, 1⟩, ⟨1, 1, 1, 1⟩, ⟨1, 1, 1, 1⟩]
    colorOne := ⟨255, 0, 0, 0⟩
    colorTwo := ⟨0, 0, 255, 0⟩
    brightness := 255
    onoffFactor := 1
    Effect := [] }

/-- A 1-pixel state whose Scale entry has a G channel of 0.5. -/
def vC2 : Vars :=
  { Pixels := [pbZero]
    Colors := [pbZero]
    Scale := [⟨1, 1/2, 1, 1⟩]
    colorOne := pfZero
    colorTwo := pfZero
    brightness := 255
    onoffFactor := 1
    Effect := [] }

/-- A 1-pixel state with saturating colors and scale, overdriven brightness
and a zero on-off factor. -/
def vOff : Vars :=
  { Pixels := [pbZero]
    Colors := [⟨255, 255, 255, 255⟩]
    Scale := [⟨2, 2, 2, 2⟩]
    colorOne := pfZero
    colorTwo := pfZero
    brightness := 300
    onoffFactor := 0
    Effect := [] }

/-- A 1-pixel reference state. -/
def vP1 : Vars :=
  { Pixels := [⟨9, 9, 9, 9⟩]
    Colors := [⟨10, 20, 30, 40⟩]
    Scale := [⟨1, 1, 1, 1⟩]
    colorOne := ⟨1, 1, 1, 1⟩
    colorTwo := pfZero
    brightness := 255
    onoffFactor := 1
    Effect := [] }

/-- A state agreeing with `vP1` on Colors, Scale, brightness, on-off factor
and pixel count, but differing in Pixels content and live colors. -/
def vP2 : Vars :=
  { Pixels := [pbZero]
    Colors := [⟨10, 20, 30, 40⟩]
    Scale := [⟨1, 1, 1, 1⟩]
    colorOne := ⟨2, 2, 2, 2⟩
    colorTwo := pfZero
    brightness := 255
    onoffFactor := 1
    Effect := [] }

/-- An effect configuration with amplitude range [0.2,1.2] and evolve-step
range [100,200]. -/
def cC3 : Config :=
  { effectMinAmplitude := 1/5
    effectMaxAmplitude := 6/5
    effectEvolveMinSteps := 100
    effectEvolveMaxSteps := 200 }

/-- The adversarial EDGE_CENTER configuration edgeSize = 0.5, centerSize = 1. -/
def cfgAdv : Config :=
  { gradientMiddleEdgeSize := 1/2
    gradientMiddleCenterSize := 1 }

lemma getD_eq_getElem_of_lt {α : Type} (l : List α) (i : Nat) (d : α)
    (h : i < l.length) : l.getD i d = l[i] := by
  rw [List.getD_eq_getElem?_getD, List.getElem?_eq_getElem h, Option.getD_some]

lemma getD_set_ne {α : Type} (l : List α) (m n : Nat) (a d : α) (h : m ≠ n) :
    (l.set m a).getD n d = l.getD n d := by
  rw [List.getD_eq_getElem?_getD, List.getD_eq_getElem?_getD, List.getElem?_set_ne h]

lemma byteOfInt_lt (x : ℤ) : byteOfInt x < 256 := by
  unfold byteOfInt
  have h1 := Int.emod_lt_of_pos x (show (0:ℤ) < 256 by norm_num)
  have h2 := Int.emod_nonneg x (show (256:ℤ) ≠ 0 by norm_num)
  omega

lemma clampByte_le (x : Nat) : clampByte x ≤ 255 := by
  unfold clampByte
  split_ifs <;> omega

lemma clampByte_of_lt {x : Nat} (h : x < 256) : clampByte x = x := by
  unfold clampByte
  rw [if_neg]
  omega

lemma byteOfInt_of_range {x : ℤ} (h0 : 0 ≤ x) (h1 : x < 256) :
    byteOfInt x = x.toNat := by
  unfold byteOfInt
  rw [Int.emod_eq_of_lt h0 h1]

lemma stepTowards_snap {current target step : ℚ} (hs : 0 < step)
    (h : |target - current| ≤ step) : stepTowards current target step = target := by
  simp only [stepTowards]
  rw [if_neg (not_le.2 hs), if_pos h]

lemma stepTowards_self (target step : ℚ) : stepTowards target target step = target := by
  simp only [stepTowards]
  split_ifs with h1 h2 h3
  · rfl
  · rfl
  all_goals
    exfalso
    apply h2
    simp only [sub_self, abs_zero]
    linarith [not_le.1 h1]

lemma stepTowards_dist {current target step : ℚ} (hs : 0 < step)
    (h : step < |target - current|) :
    |target - stepTowards current target step| = |target - current| - step := by
  simp only [stepTowards]
  rw [if_neg (not_le.2 hs), if_neg (not_le.2 h)]
  rcases lt_or_le 0 (target - current) with hd | hd
  · rw [if_pos hd]
    rw [abs_of_pos hd] at h ⊢
    have h1 : target - (current + step) = target - current - step := by ring
    rw [h1, abs_of_pos (by linarith)]
  · rw [if_neg (not_lt.2 hd)]
    rw [abs_of_nonpos hd] at h ⊢
    have h1 : target - (current + -step) = target - current + step := by ring
    rw [h1, abs_of_neg (by linarith)]
    ring

lemma stepTowards_bounds {current target step : ℚ} (hs : 0 < step) :
    min current target ≤ stepTowards current target step ∧
    stepTowards current target step ≤ max current target := by
  simp only [stepTowards]
  rw [if_neg (not_le.2 hs)]
  split_ifs with h1 h2
  · exact ⟨min_le_right _ _, le_max_right _ _⟩
  · have h3 : step < target - current := by
      rw [abs_of_pos h2] at h1
      linarith [not_le.1 h1]
    constructor
    · calc min current target ≤ current := min_le_left _ _
        _ ≤ current + step := by linarith
    · calc current + step ≤ target := by linarith
        _ ≤ max current target := le_max_right _ _
  · have h2' : target - current ≤ 0 := not_lt.1 h2
    have h3 : target - current < -step := by
      rw [abs_of_nonpos h2'] at h1
      linarith [not_le.1 h1]
    constructor
    · calc min current target ≤ target := min_le_right _ _
        _ ≤ current + -step := by linarith
    · calc current + -step ≤ current := by linarith
        _ ≤ max current target := le_max_left _ _

lemma stepIter_fixed (target step : ℚ) : ∀ m, stepIter target step target m = target := by
  intro m
  induction m with
  | zero => rfl
  | succ m ih =>
      rw [stepIter, Function.iterate_succ_apply']
      rw [stepIter] at ih
      rw [ih, stepTowards_self]

lemma stepIter_conv (target step : ℚ) (hs : 0 < step) :
    ∀ k : Nat, ∀ start : ℚ, (⌈|target - start| / step⌉).toNat = k →
      stepIter target step start k = target ∧
      ∀ j < k, stepIter target step start j ≠ target := by
  intro k
  induction k with
  | zero =>
      intro start hk
      have h0 : ⌈|target - start| / step⌉ ≤ 0 := by omega
      rw [Int.ceil_le] at h0
      push_cast at h0
      have habs : |target - start| ≤ 0 := by
        by_contra hc
        push_neg at hc
        exact absurd (div_pos hc hs) (by linarith)
      have h1 : target - start = 0 := abs_eq_zero.1 (le_antisymm habs (abs_nonneg _))
      have h2 : start = target := by linarith [sub_eq_zero.1 h1]
      exact ⟨h2, fun j hj => absurd hj (Nat.not_lt_zero j)⟩
  | succ k ih =>
      intro start hk
      have hkk : ⌈|target - start| / step⌉ = (k : ℤ) + 1 := by omega
      have hd_pos : 0 < |target - start| := by
        rcases (abs_nonneg (target - start)).lt_or_eq with h | h
        · exact h
        · exfalso
          rw [← h] at hkk
          rw [zero_div, Int.ceil_zero] at hkk
          omega
      have hstart_ne : start ≠ target := by
        intro he
        rw [he, sub_self, abs_zero] at hd_pos
        exact lt_irrefl 0 hd_pos
      rcases le_or_lt |target - start| step with hle | hlt
      · have h1 : ⌈|target - start| / step⌉ = 1 := by
          rw [Int.ceil_eq_iff]
          constructor
          · push_cast
            have := div_pos hd_pos hs
            linarith
          · push_cast
            rw [div_le_one hs]
            exact hle
        have hk0 : k = 0 := by omega
        subst hk0
        refine ⟨?_, ?_⟩
        · show stepIter target step start 1 = target
          rw [stepIter, Function.iterate_one]
          exact stepTowards_snap hs hle
        · intro j hj
          interval_cases j
          simpa [stepIter] using hstart_ne
      · have hdist : |target - stepTowards start target step| = |target - start| - step :=
          stepTowards_dist hs hlt
        have hdiv : (|target - start| - step) / step = |target - start| / step - 1 := by
          rw [sub_div, div_self (ne_of_gt hs)]
        have hk' : (⌈|target - stepTowards start target step| / step⌉).toNat = k := by
          rw [hdist, hdiv, Int.ceil_sub_one, hkk]
          omega
        obtain ⟨ih1, ih2⟩ := ih (stepTowards start target step) hk'
        refine ⟨?_, ?_⟩
        · rw [stepIter, Function.iterate_succ_apply]
          exact ih1
        · intro j hj
          cases j with
          | zero => simpa [stepIter] using hstart_ne
          | succ j' =>
              rw [stepIter, Function.iterate_succ_apply]
              exact ih2 j' (by omega)

/-- Claim C5: one Fader step snaps to the target when within `step`, otherwise
moves by exactly `step` toward the target without overshooting; iterating from
any start reaches the target in exactly the ceiling of distance over step
calls and stays there afterwards. -/
theorem fader_step_and_convergence (current target step start : ℚ) (hs : 0 < step) :
    (|target - current| ≤ step → stepTowards current target step = target) ∧
    (step < |target - current| →
      |target - stepTowards current target step| = |target - current| - step) ∧
    (min current target ≤ stepTowards current target step ∧
      stepTowards current target step ≤ max current target) ∧
    (stepIter target step start (⌈|target - start| / step⌉).toNat = target ∧
      (∀ j < (⌈|target - start| / step⌉).toNat,
        stepIter target step start j ≠ target) ∧
      ∀ m, (⌈|target - start| / step⌉).toNat ≤ m →
        stepIter target step start m = target) := by
  obtain ⟨hconv1, hconv2⟩ := stepIter_conv target step hs _ start rfl
  refine ⟨fun h => stepTowards_snap hs h, fun h => stepTowards_dist hs h,
    stepTowards_bounds hs, hconv1, hconv2, ?_⟩
  intro m hm
  have hsplit : m = (m - (⌈|target - start| / step⌉).toNat) +
      (⌈|target - start| / step⌉).toNat := by omega
  rw [hsplit, stepIter, Function.iterate_add_apply]
  have h1 : (fun x => stepTowards x target step)^[(⌈|target - start| / step⌉).toNat] start
      = target := hconv1
  rw [h1]
  exact stepIter_fixed target step _

theorem fader_step_and_convergence_witness :
    stepIter 10 3 0 (⌈|(10 : ℚ) - 0| / 3⌉).toNat = 10 :=
  (fader_step_and_convergence 0 10 3 0 (by norm_num)).2.2.2.1

/-- Claim C10: a zero or negative step makes StepTowards return the target
immediately. -/
theorem step_towards_nonpositive_jump (current target step : ℚ) (h : step ≤ 0) :
    stepTowards current target step = target := by
  simp only [stepTowards]
  rw [if_pos h]

theorem step_towards_nonpositive_jump_witness :
    stepTowards 5 7 0 = 7 :=
  step_towards_nonpositive_jump 5 7 0 le_rfl

lemma getCh_setCh_same {c : ℤ} (hc0 : 0 ≤ c) (hc3 : c ≤ 3) (x : ℚ) (p : PixelFloat) :
    getCh c (setCh c x p) = x := by
  interval_cases c <;> simp [getCh, setCh]

lemma getCh_setCh_ne {c c' : ℤ} (hc0 : 0 ≤ c) (hc3 : c ≤ 3) (hc'0 : 0 ≤ c')
    (hc'3 : c' ≤ 3) (hne : c' ≠ c) (x : ℚ) (p : PixelFloat) :
    getCh c' (setCh c x p) = getCh c' p := by
  interval_cases c <;> interval_cases c' <;> simp_all [getCh, setCh]

/-- Claim C6: one ShiftScaleChannel call makes the selected channel column of
the Scale buffer equal the previous column shifted by one position (toward
higher index when forward, lower when backward) with exactly the one new value
injected at the vacated slot, preserving the order of all other entries, and
leaves the other three channel columns unchanged. -/
theorem shift_scale_channel_rotation (newValue : ℚ) (channel : ℤ) (forward : Bool)
    (scale : List PixelFloat) (hne : scale ≠ []) (hc0 : 0 ≤ channel)
    (hc3 : channel ≤ 3) :
    ((shiftScaleChannel newValue channel forward scale).map (getCh channel) =
      if forward then newValue :: (scale.map (getCh channel)).dropLast
      else (scale.map (getCh channel)).tail ++ [newValue]) ∧
    ∀ c' : ℤ, 0 ≤ c' → c' ≤ 3 → c' ≠ channel →
      (shiftScaleChannel newValue channel forward scale).map (getCh c') =
        scale.map (getCh c') := by
  have hlen : scale.length ≠ 0 := by simpa using hne
  have hguard : ¬(channel < 0 ∨ 3 < channel) := by
    push_neg
    exact ⟨hc0, hc3⟩
  constructor
  · simp only [shiftScaleChannel, if_neg hlen, if_neg hguard]
    cases forward with
    | true =>
        simp only [if_true]
        apply List.ext_getElem
        · simp only [List.length_map, List.length_range, List.length_cons,
            List.length_dropLast]
          omega
        · intro i h1 h2
          simp only [List.getElem_map, List.getElem_range]
          cases i with
          | zero =>
              simp only [if_pos rfl, List.getElem_cons_zero]
              exact getCh_setCh_same hc0 hc3 _ _
          | succ j =>
              have hjlen : j < scale.length := by
                simp only [List.length_map, List.length_range] at h1
                omega
              simp only [Nat.succ_ne_zero, if_false, List.getElem_cons_succ,
                Nat.add_sub_cancel]
              rw [getCh_setCh_same hc0 hc3]
              rw [List.getElem_dropLast, List.getElem_map]
              rw [getD_eq_getElem_of_lt _ _ _ hjlen]
    | false =>
        simp only [if_false, Bool.false_eq_true]
        apply List.ext_getElem
        · simp only [List.length_map, List.length_range, List.length_append,
            List.length_tail, List.length_cons, List.length_nil]
          omega
        · intro i h1 h2
          simp only [List.getElem_map, List.getElem_range]
          by_cases hi : i = scale.length - 1
          · rw [if_pos hi]
            rw [List.getElem_append_right]
            · simp only [List.length_tail, List.length_map]
              have : i - (scale.length - 1) = 0 := by omega
              simp only [this, List.getElem_cons_zero]
              exact getCh_setCh_same hc0 hc3 _ _
            · simp only [List.length_tail, List.length_map]
              omega
          · rw [if_neg hi]
            have hilen : i < scale.length - 1 := by
              simp only [List.length_map, List.length_range] at h1
              omega
            rw [getCh_setCh_same hc0 hc3]
            rw [List.getElem_append_left (by
              simp only [List.length_tail, List.length_map]
              omega)]
            rw [List.getElem_tail, List.getElem_map]
            rw [getD_eq_getElem_of_lt _ _ _ (by omega)]
  · intro c' hc'0 hc'3 hnec
    simp only [shiftScaleChannel, if_neg hlen, if_neg hguard]
    apply List.ext_getElem
    · simp only [List.length_map, List.length_range]
    · intro i h1 h2
      simp only [List.getElem_map, List.getElem_range]
      have hilen : i < scale.length := by
        simp only [List.length_map, List.length_range] at h1
        omega
      rw [getD_eq_getElem_of_lt _ _ _ hilen]
      cases forward with
      | true =>
          simp only [if_true]
          split_ifs with h0
          · rw [getCh_setCh_ne hc0 hc3 hc'0 hc'3 hnec]
          · rw [getCh_setCh_ne hc0 hc3 hc'0 hc'3 hnec]
      | false =>
          simp only [if_false, Bool.false_eq_true]
          split_ifs with h0
          · rw [getCh_setCh_ne hc0 hc3 hc'0 hc'3 hnec]
          · rw [getCh_setCh_ne hc0 hc3 hc'0 hc'3 hnec]

theorem shift_scale_channel_rotation_witness :
    (shiftScaleChannel 9 1 true [⟨1,2,3,4⟩, ⟨5,6,7,8⟩]).map (getCh 1) =
      9 :: (([⟨1,2,3,4⟩, ⟨5,6,7,8⟩] : List PixelFloat).map (getCh 1)).dropLast := by
  have h := (shift_scale_channel_rotation 9 1 true [⟨1,2,3,4⟩, ⟨5,6,7,8⟩]
    (by simp) (by norm_num) (by norm_num)).1
  simpa using h

/-- Claim C2 is contradicted by the code: the `effectActive == false` branch
of Effect passes the literal channel 0 on every loop iteration, so a tick
injects 1.0 only into the R channel; a Scale entry whose G channel is 0.5
keeps it after the tick instead of receiving 1.0. -/
theorem effect_inactive_leaves_g_channel :
    ((effectTickInactive vC2).Scale.getD 0 pfZero).G = 1/2 ∧ ((1:ℚ)/2 ≠ 1) := by
  constructor
  · norm_num [effectTickInactive, shiftScaleChannel, setCh, getCh, vC2, pfZero,
      List.range_succ, List.getD_eq_getElem?_getD]
  · norm_num

lemma setPixelRGBW_preserves (index : Nat) (r g b w : ℤ) (v : Vars) :
    ((setPixelRGBW index r g b w v).2).Colors = v.Colors ∧
    ((setPixelRGBW index r g b w v).2).Scale = v.Scale ∧
    ((setPixelRGBW index r g b w v).2).colorOne = v.colorOne ∧
    ((setPixelRGBW index r g b w v).2).colorTwo = v.colorTwo ∧
    ((setPixelRGBW index r g b w v).2).brightness = v.brightness ∧
    ((setPixelRGBW index r g b w v).2).onoffFactor = v.onoffFactor ∧
    ((setPixelRGBW index r g b w v).2).Effect = v.Effect ∧
    ((setPixelRGBW index r g b w v).2).Pixels.length = v.Pixels.length := by
  unfold setPixelRGBW
  split_ifs <;> simp

lemma outputScalingStep_preserves (bn onOff : ℚ) (w : Vars) (i : Nat) :
    (outputScalingStep bn onOff w i).Colors = w.Colors ∧
    (outputScalingStep bn onOff w i).Scale = w.Scale ∧
    (outputScalingStep bn onOff w i).colorOne = w.colorOne ∧
    (outputScalingStep bn onOff w i).colorTwo = w.colorTwo ∧
    (outputScalingStep bn onOff w i).brightness = w.brightness ∧
    (outputScalingStep bn onOff w i).onoffFactor = w.onoffFactor ∧
    (outputScalingStep bn onOff w i).Effect = w.Effect ∧
    (outputScalingStep bn onOff w i).Pixels.length = w.Pixels.length := by
  unfold outputScalingStep
  exact setPixelRGBW_preserves _ _ _ _ _ _

lemma foldl_output_preserves (bn onOff : ℚ) (l : List Nat) :
    ∀ v : Vars,
    (l.foldl (outputScalingStep bn onOff) v).Colors = v.Colors ∧
    (l.foldl (outputScalingStep bn onOff) v).Scale = v.Scale ∧
    (l.foldl (outputScalingStep bn onOff) v).colorOne = v.colorOne ∧
    (l.foldl (outputScalingStep bn onOff) v).colorTwo = v.colorTwo ∧
    (l.foldl (outputScalingStep bn onOff) v).brightness = v.brightness ∧
    (l.foldl (outputScalingStep bn onOff) v).onoffFactor = v.onoffFactor ∧
    (l.foldl (outputScalingStep bn onOff) v).Effect = v.Effect ∧
    (l.foldl (outputScalingStep bn onOff) v).Pixels.length = v.Pixels.length := by
  induction l with
  | nil => intro v; simp
  | cons a l ih =>
      intro v
      rw [List.foldl_cons]
      obtain ⟨h1, h2, h3, h4, h5, h6, h7, h8⟩ := ih (outputScalingStep bn onOff v a)
      obtain ⟨g1, g2, g3, g4, g5, g6, g7, g8⟩ := outputScalingStep_preserves bn onOff v a
      exact ⟨h1.trans g1, h2.trans g2, h3.trans g3, h4.trans g4, h5.trans g5,
        h6.trans g6, h7.trans g7, h8.trans g8⟩

lemma outputScalingStep_pixels (bn onOff : ℚ) (w : Vars) (i : Nat) :
    (outputScalingStep bn onOff w i).Pixels =
      if w.Count ≤ i then w.Pixels
      else w.Pixels.set i
        (outPixel (w.Colors.getD i pbZero) (w.Scale.getD i pfZero) bn onOff) := by
  simp only [outputScalingStep, setPixelRGBW, outPixel, outChannel]
  split_ifs <;> rfl

lemma foldl_range_getD (bn onOff : ℚ) (v : Vars) :
    ∀ k : Nat, ∀ j, j < v.Pixels.length →
      ((List.range k).foldl (outputScalingStep bn onOff) v).Pixels.getD j pbZero =
        if j < k then
          outPixel (v.Colors.getD j pbZero) (v.Scale.getD j pfZero) bn onOff
        else v.Pixels.getD j pbZero := by
  intro k
  induction k with
  | zero => simp
  | succ k ih =>
      intro j hj
      rw [List.range_succ, List.foldl_append, List.foldl_cons, List.foldl_nil]
      obtain ⟨hC, hS, _, _, _, _, _, hL⟩ := foldl_output_preserves bn onOff (List.range k) v
      rw [outputScalingStep_pixels]
      have hcount : ((List.range k).foldl (outputScalingStep bn onOff) v).Count
          = v.Pixels.length := hL
      by_cases hk : v.Pixels.length ≤ k
      · rw [if_pos (by rw [hcount]; exact hk)]
        rw [ih j hj]
        rw [if_pos (by omega), if_pos (by omega)]
      · rw [if_neg (by rw [hcount]; exact hk)]
        by_cases hjk : j = k
        · subst hjk
          rw [getD_eq_getElem_of_lt _ _ _ (by rw [List.length_set, hL]; omega),
            List.getElem_set_self, hC, hS]
          rw [if_pos (by omega)]
        · rw [getD_set_ne _ _ _ _ _ (fun h => hjk h.symm)]
          rw [ih j hj]
          by_cases hjk2 : j < k
          · rw [if_pos hjk2, if_pos (by omega)]
          · rw [if_neg hjk2, if_neg (by omega)]

lemma applyOutputScaling_preserves (v : Vars) :
    (applyOutputScaling v).Colors = v.Colors ∧
    (applyOutputScaling v).Scale = v.Scale ∧
    (applyOutputScaling v).colorOne = v.colorOne ∧
    (applyOutputScaling v).colorTwo = v.colorTwo ∧
    (applyOutputScaling v).brightness = v.brightness ∧
    (applyOutputScaling v).onoffFactor = v.onoffFactor ∧
    (applyOutputScaling v).Effect = v.Effect ∧
    (applyOutputScaling v).Pixels.length = v.Pixels.length := by
  unfold applyOutputScaling
  exact foldl_output_preserves _ _ _ v

lemma applyOutputScaling_getD (v : Vars) (j : Nat) (hj : j < v.Pixels.length) :
    (applyOutputScaling v).Pixels.getD j pbZero =
      outPixel (v.Colors.getD j pbZero) (v.Scale.getD j pfZero)
        (constrainQ v.brightness 0 255 / 255) v.onoffFactor := by
  unfold applyOutputScaling
  rw [foldl_range_getD _ _ v v.Count j hj]
  rw [if_pos (show j < v.Count from hj)]

lemma outChannel_le (cb : Nat) (s bn oo : ℚ) : outChannel cb s bn oo ≤ 255 := by
  unfold outChannel
  exact clampByte_le _

lemma outChannel_onoff_zero (cb : Nat) (s bn : ℚ) : outChannel cb s bn 0 = 0 := by
  unfold outChannel
  rw [mul_zero, zero_add]
  norm_num [truncQ, byteOfInt, clampByte, Int.floor_eq_iff]

lemma outPixel_onoff_zero (ci : PixelByte) (si : PixelFloat) (bn : ℚ) :
    outPixel ci si bn 0 = pbZero := by
  unfold outPixel pbZero
  rw [outChannel_onoff_zero, outChannel_onoff_zero, outChannel_onoff_zero,
    outChannel_onoff_zero]

/-- Claim C4: after ApplyOutputScaling every channel of every Pixels entry is
in [0,255], and a zero on-off factor forces every Pixels entry to zero. -/
theorem output_clamp_and_onoff_zero (v : Vars) :
    (∀ p ∈ (applyOutputScaling v).Pixels,
      p.R ≤ 255 ∧ p.G ≤ 255 ∧ p.B ≤ 255 ∧ p.W ≤ 255) ∧
    (v.onoffFactor = 0 → ∀ p ∈ (applyOutputScaling v).Pixels, p = pbZero) := by
  have hlen := (applyOutputScaling_preserves v).2.2.2.2.2.2.2
  constructor
  · intro p hp
    obtain ⟨j, hjl, hjp⟩ := List.mem_iff_getElem.1 hp
    have hjv : j < v.Pixels.length := by rw [← hlen]; exact hjl
    have hgd : (applyOutputScaling v).Pixels.getD j pbZero = p := by
      rw [getD_eq_getElem_of_lt _ _ _ hjl, hjp]
    rw [applyOutputScaling_getD v j hjv] at hgd
    rw [← hgd]
    exact ⟨outChannel_le _ _ _ _, outChannel_le _ _ _ _, outChannel_le _ _ _ _,
      outChannel_le _ _ _ _⟩
  · intro h0 p hp
    obtain ⟨j, hjl, hjp⟩ := List.mem_iff_getElem.1 hp
    have hjv : j < v.Pixels.length := by rw [← hlen]; exact hjl
    have hgd : (applyOutputScaling v).Pixels.getD j pbZero = p := by
      rw [getD_eq_getElem_of_lt _ _ _ hjl, hjp]
    rw [applyOutputScaling_getD v j hjv, h0, outPixel_onoff_zero] at hgd
    exact hgd.symm

lemma vOff_pixels : (applyOutputScaling vOff).Pixels = [pbZero] := by
  norm_num [applyOutputScaling, vOff, Vars.Count, outputScalingStep, setPixelRGBW,
    constrainQ, truncQ, byteOfInt, clampByte, pbZero, pfZero, List.range_succ,
    Int.floor_eq_iff]

theorem output_clamp_and_onoff_zero_witness :
    (pbZero.R ≤ 255 ∧ pbZero.G ≤ 255 ∧ pbZero.B ≤ 255 ∧ pbZero.W ≤ 255) ∧
    pbZero = pbZero :=
  ⟨(output_clamp_and_onoff_zero vOff).1 pbZero (by rw [vOff_pixels]; simp),
   (output_clamp_and_onoff_zero vOff).2 rfl pbZero (by rw [vOff_pixels]; simp)⟩

/-- Claim C8: ApplyOutputScaling leaves every non-Pixels component of the
state unchanged, and its Pixels output is a function of Colors, Scale, the
live brightness, the live on-off factor and the pixel count alone. -/
theorem output_scaling_writes_only_pixels (v v' : Vars)
    (hC : v'.Colors = v.Colors) (hS : v'.Scale = v.Scale)
    (hb : v'.brightness = v.brightness) (ho : v'.onoffFactor = v.onoffFactor)
    (hn : v'.Pixels.length = v.Pixels.length) :
    (applyOutputScaling v).Colors = v.Colors ∧
    (applyOutputScaling v).Scale = v.Scale ∧
    (applyOutputScaling v).colorOne = v.colorOne ∧
    (applyOutputScaling v).colorTwo = v.colorTwo ∧
    (applyOutputScaling v).brightness = v.brightness ∧
    (applyOutputScaling v).onoffFactor = v.onoffFactor ∧
    (applyOutputScaling v).Effect = v.Effect ∧
    (applyOutputScaling v').Pixels = (applyOutputScaling v).Pixels := by
  obtain ⟨h1, h2, h3, h4, h5, h6, h7, h8⟩ := applyOutputScaling_preserves v
  have h8' := (applyOutputScaling_preserves v').2.2.2.2.2.2.2
  refine ⟨h1, h2, h3, h4, h5, h6, h7, ?_⟩
  apply List.ext_getElem
  · rw [h8, h8', hn]
  · intro i hi hi'
    have hiv' : i < v'.Pixels.length := by rw [← h8']; exact hi
    have hiv : i < v.Pixels.length := by rw [← h8]; exact hi'
    rw [← getD_eq_getElem_of_lt _ _ pbZero hi, ← getD_eq_getElem_of_lt _ _ pbZero hi']
    rw [applyOutputScaling_getD v' i hiv', applyOutputScaling_getD v i hiv]
    rw [hC, hS, hb, ho]

theorem output_scaling_writes_only_pixels_witness :
    (applyOutputScaling vP1).Colors = vP1.Colors ∧
    (applyOutputScaling vP1).Scale = vP1.Scale ∧
    (applyOutputScaling vP1).colorOne = vP1.colorOne ∧
    (applyOutputScaling vP1).colorTwo = vP1.colorTwo ∧
    (applyOutputScaling vP1).brightness = vP1.brightness ∧
    (applyOutputScaling vP1).onoffFactor = vP1.onoffFactor ∧
    (applyOutputScaling vP1).Effect = vP1.Effect ∧
    (applyOutputScaling vP2).Pixels = (applyOutputScaling vP1).Pixels :=
  output_scaling_writes_only_pixels vP1 vP2 rfl rfl rfl rfl rfl

/-- Claim C9: SetPixelRGBW rejects any index at or beyond the pixel count
without touching the state, and for a valid index returns true and writes
exactly the addressed pixel, leaving everything else unchanged. -/
theorem set_pixel_write_bounds (v : Vars) (index : Nat) (r g b w : ℤ)
    (hr0 : 0 ≤ r) (hr1 : r < 256) (hg0 : 0 ≤ g) (hg1 : g < 256)
    (hb0 : 0 ≤ b) (hb1 : b < 256) (hw0 : 0 ≤ w) (hw1 : w < 256) :
    (v.Count ≤ index → setPixelRGBW index r g b w v = (false, v)) ∧
    (index < v.Count →
      (setPixelRGBW index r g b w v).1 = true ∧
      ((setPixelRGBW index r g b w v).2).Pixels.getD index pbZero =
        ⟨r.toNat, g.toNat, b.toNat, w.toNat⟩ ∧
      (∀ j, j ≠ index →
        ((setPixelRGBW index r g b w v).2).Pixels.getD j pbZero =
          v.Pixels.getD j pbZero) ∧
      ((setPixelRGBW index r g b w v).2).Colors = v.Colors ∧
      ((setPixelRGBW index r g b w v).2).Scale = v.Scale ∧
      ((setPixelRGBW index r g b w v).2).colorOne = v.colorOne ∧
      ((setPixelRGBW index r g b w v).2).colorTwo = v.colorTwo ∧
      ((setPixelRGBW index r g b w v).2).brightness = v.brightness ∧
      ((setPixelRGBW index r g b w v).2).onoffFactor = v.onoffFactor ∧
      ((setPixelRGBW index r g b w v).2).Effect = v.Effect) := by
  constructor
  · intro h
    unfold setPixelRGBW
    rw [if_pos h]
  · intro h
    have hnot : ¬(v.Count ≤ index) := not_le.2 h
    simp only [setPixelRGBW, if_neg hnot]
    refine ⟨trivial, ?_, ?_, trivial, trivial, trivial, trivial, trivial, trivial, trivial⟩
    · have hset : index < (v.Pixels.set index
          ⟨clampByte (byteOfInt r), clampByte (byteOfInt g),
           clampByte (byteOfInt b), clampByte (byteOfInt w)⟩).length := by
        rw [List.length_set]
        exact h
      rw [getD_eq_getElem_of_lt _ _ _ hset, List.getElem_set_self]
      rw [clampByte_of_lt (byteOfInt_lt r), clampByte_of_lt (byteOfInt_lt g),
        clampByte_of_lt (byteOfInt_lt b), clampByte_of_lt (byteOfInt_lt w)]
      rw [byteOfInt_of_range hr0 hr1, byteOfInt_of_range hg0 hg1,
        byteOfInt_of_range hb0 hb1, byteOfInt_of_range hw0 hw1]
    · intro j hj
      exact getD_set_ne _ _ _ _ _ (fun he => hj he.symm)

theorem set_pixel_write_bounds_witness :
    ((setPixelRGBW 0 1 2 3 4 vP1).2).Pixels.getD 0 pbZero = ⟨1, 2, 3, 4⟩ :=
  (((set_pixel_write_bounds vP1 0 1 2 3 4 (by norm_num) (by norm_num)
    (by norm_num) (by norm_num) (by norm_num) (by norm_num) (by norm_num)
    (by norm_num)).2 (by norm_num [Vars.Count, vP1])).2).1

lemma c1_gradient : computeGradient {} .LINEAR false vC1 =
    { vC1 with Colors := [⟨255, 0, 0, 0⟩, ⟨127, 0, 127, 0⟩, ⟨0, 0, 255, 0⟩] } := by
  norm_num [computeGradient, vC1, Vars.Count, pixelByteOfFloat, blendColors,
    constrainQ, truncQ, byteOfInt, pbZero, List.range_succ, Int.floor_eq_iff]
  decide

lemma c1_pixels : (applyOutputScaling (computeGradient {} .LINEAR false vC1)).Pixels =
    [⟨255, 0, 0, 0⟩, ⟨127, 0, 127, 0⟩, ⟨0, 0, 255, 0⟩] := by
  rw [c1_gradient]
  norm_num [applyOutputScaling, vC1, Vars.Count, outputScalingStep, setPixelRGBW,
    constrainQ, truncQ, byteOfInt, clampByte, pbZero, pfZero, List.range_succ,
    Int.floor_eq_iff]
  decide

/-- Claim C1 as stated is false: the 3-pixel LINEAR end-to-end scenario does
not produce a middle pixel of (128,0,128,0), because applyColor truncates the
lerp value 127.5 to byte instead of rounding it. -/
theorem linear_end_to_end_counterexample :
    (applyOutputScaling (computeGradient {} .LINEAR false vC1)).Pixels ≠
      [⟨255, 0, 0, 0⟩, ⟨128, 0, 128, 0⟩, ⟨0, 0, 255, 0⟩] := by
  rw [c1_pixels]
  decide

/-- Claim C1 amended: the scenario yields Pixels
[(255,0,0,0), (127,0,127,0), (0,0,255,0)], the middle pixel being the t = 0.5
lerp truncated to byte by the gradient stage. -/
theorem linear_end_to_end_amended :
    (applyOutputScaling (computeGradient {} .LINEAR false vC1)).Pixels =
      [⟨255, 0, 0, 0⟩, ⟨127, 0, 127, 0⟩, ⟨0, 0, 255, 0⟩] :=
  c1_pixels

/-- Claim C3 is contradicted by the code: with amplitude range [0.2,1.2] and
evolve range [100,200], the transitions 0.2 to 1.0 and 1.0 to 0.2 have the
same absolute difference 0.8 and the same jitter 1.0, yet the code computes
160 and 100 steps respectively, because it maps the signed difference; the
spec-side mapping of the absolute difference gives 160 for both. -/
theorem evolve_numsteps_sign_divergence :
    evolveNumSteps cC3 (1/5) 1 1 = 160 ∧
    evolveNumSteps cC3 1 (1/5) 1 = 100 ∧
    evolveNumStepsSpec cC3 (1/5) 1 1 = 160 ∧
    evolveNumStepsSpec cC3 1 (1/5) 1 = 160 ∧
    |(1 : ℚ) - 1/5| = |(1/5 : ℚ) - 1| ∧ (160 : Nat) ≠ 100 := by
  refine ⟨?_, ?_, ?_, ?_, by norm_num [abs_of_nonneg, abs_of_nonpos], by norm_num⟩ <;>
    (norm_num [evolveNumSteps, evolveNumStepsSpec, mapFloatToFloat, castU32, truncQ,
      cC3, Int.floor_eq_iff, abs_of_nonneg, abs_of_nonpos]; rfl)

lemma constrainQ_bounds (x : ℚ) {lo hi : ℚ} (h : lo ≤ hi) :
    lo ≤ constrainQ x lo hi ∧ constrainQ x lo hi ≤ hi := by
  unfold constrainQ
  split_ifs <;> constructor <;> linarith

/-- Claim C7: after the EDGE_CENTER sanitizer, twice the edge size plus the
center size is at most 1, the edge size is in [0,0.5], the center size is in
[0,1], and the adversarial input edgeSize = 0.5, centerSize = 1 has its
center size clamped to 0. -/
theorem sanitize_edge_center_invariant (cfg : Config) :
    (2 * (sanitizeEdgeCenterConfig cfg).gradientMiddleEdgeSize +
        (sanitizeEdgeCenterConfig cfg).gradientMiddleCenterSize ≤ 1) ∧
    (0 ≤ (sanitizeEdgeCenterConfig cfg).gradientMiddleEdgeSize ∧
      (sanitizeEdgeCenterConfig cfg).gradientMiddleEdgeSize ≤ 1/2) ∧
    (0 ≤ (sanitizeEdgeCenterConfig cfg).gradientMiddleCenterSize ∧
      (sanitizeEdgeCenterConfig cfg).gradientMiddleCenterSize ≤ 1) ∧
    (cfg.gradientMiddleEdgeSize = 1/2 → cfg.gradientMiddleCenterSize = 1 →
      (sanitizeEdgeCenterConfig cfg).gradientMiddleCenterSize = 0) := by
  obtain ⟨he0, he1⟩ := constrainQ_bounds cfg.gradientMiddleEdgeSize
    (show (0:ℚ) ≤ 1/2 by norm_num)
  obtain ⟨hc0, hc1⟩ := constrainQ_bounds cfg.gradientMiddleCenterSize
    (show (0:ℚ) ≤ 1 by norm_num)
  refine ⟨?_, ⟨?_, ?_⟩, ⟨?_, ?_⟩, ?_⟩
  · simp only [sanitizeEdgeCenterConfig]
    split_ifs <;> linarith
  · simp only [sanitizeEdgeCenterConfig]
    exact he0
  · simp only [sanitizeEdgeCenterConfig]
    exact he1
  · simp only [sanitizeEdgeCenterConfig]
    split_ifs <;> linarith
  · simp only [sanitizeEdgeCenterConfig]
    split_ifs <;> linarith
  · intro h1 h2
    simp only [sanitizeEdgeCenterConfig, h1, h2]
    norm_num [constrainQ]

theorem sanitize_edge_center_invariant_witness :
    (sanitizeEdgeCenterConfig cfgAdv).gradientMiddleCenterSize = 0 :=
  (sanitize_edge_center_invariant cfgAdv).2.2.2 rfl rfl

end LumoLED
